import Mathlib

/-!
Shallow embedding of the minimal X11 client in
`src/bin/bob/examples/bin/c-x11/src/x11.c` / `x11.h`.

Conventions:
- A byte stream (socket data, file contents, memory regions) is a `List Nat`
  whose elements are byte values.
- Machine integers are `Nat` with explicit `% 2 ^ w` at the points where the C
  code truncates (struct field assignment, arithmetic on fixed-width fields).
  `int16_t` values are `Int` in the range `[-2 ^ 15, 2 ^ 15)`.
- `write(fd, p, n)` emits `n` bytes starting at pointer `p`; the memory
  reachable from `p` is modelled as a `List Nat`, so the emission is
  `mem.take n` (an over-long `n` reads past the intended payload, exactly as
  the C does).
- All request structs in `x11.h` use naturally aligned fields with explicit
  pad bytes, so the in-memory layout has no implicit padding; multi-byte
  fields are serialized little-endian (the host order declared by the
  `byte_order = 'l'` marker in `x11_connect`).
-/

namespace X11

/-- Little-endian serialization of a `uint16_t` field (low byte first);
assignment into the field truncates modulo `2 ^ 16`. -/
def le16 (n : Nat) : List Nat := [n % 256, n / 256 % 256]

/-- Little-endian serialization of a `uint32_t` field. -/
def le32 (n : Nat) : List Nat :=
  [n % 256, n / 256 % 256, n / 65536 % 256, n / 16777216 % 256]

/-- Little-endian serialization of an `int16_t` field (two's complement). -/
def leI16 (x : Int) : List Nat := le16 (x % 65536).toNat

@[simp] theorem le16_length (n : Nat) : (le16 n).length = 2 := rfl

@[simp] theorem le32_length (n : Nat) : (le32 n).length = 4 := rfl

@[simp] theorem leI16_length (x : Int) : (leI16 x).length = 2 := rfl

/-- The screen record cached on the connection is not needed by any claim;
only its presence matters.  `x11_connection_t` from `x11.h`. -/
structure Connection where
  fd : Int
  id : Nat
  id_inc : Nat
deriving DecidableEq, Repr

/-- The fixed-size setup reply `x11_setup_t` from `x11.h` (all fields `Nat`,
each bounded by its C type's width where a claim needs it). -/
structure Setup where
  status : Nat
  protocol_major_version : Nat
  protocol_minor_version : Nat
  length : Nat
  release_number : Nat
  resource_id_base : Nat
  resource_id_mask : Nat
  motion_buffer_size : Nat
  vendor_len : Nat
  maximum_request_length : Nat
  roots_len : Nat
  pixmap_formats_len : Nat
  image_byte_order : Nat
  bitmap_format_bit_order : Nat
  bitmap_format_scanline_unit : Nat
  bitmap_format_scanline_pad : Nat
  min_keycode : Nat
  max_keycode : Nat
deriving DecidableEq, Repr

/-- Lines 116-123 of `x11.c` (`x11_connect`): after reading the fixed-size
setup reply, check the status byte; on failure return `false` without
touching the connection, otherwise record the resource-id base and the
increment `mask & -mask` (unary minus on `uint32_t` is `(2 ^ 32 - m) % 2 ^ 32`). -/
def x11_connect_setup (setup : Setup) (conn : Connection) : Bool × Connection :=
  if setup.status ≠ 1 then
    (false, conn)
  else
    (true,
      { conn with
        id := setup.resource_id_base,
        id_inc := setup.resource_id_mask &&&
          ((2 ^ 32 - setup.resource_id_mask) % 2 ^ 32) })

/-- Lines 152-156 of `x11.c`: return the current counter, then advance it by
the increment (`uint32_t` addition wraps modulo `2 ^ 32`). -/
def x11_generate_id (conn : Connection) : Nat × Connection :=
  (conn.id, { conn with id := (conn.id + conn.id_inc) % 2 ^ 32 })

/-- State of the connection after `k` calls of `x11_generate_id`. -/
def genState (conn : Connection) : Nat → Connection
  | 0 => conn
  | k + 1 => (x11_generate_id (genState conn k)).2

theorem genState_id_inc (conn : Connection) (k : Nat) :
    (genState conn k).id_inc = conn.id_inc := by
  induction k with
  | zero => rfl
  | succ k ih => simp [genState, x11_generate_id, ih]

theorem genState_id (conn : Connection) (hid : conn.id < 2 ^ 32) :
    ∀ k : Nat, (genState conn k).id = (conn.id + k * conn.id_inc) % 2 ^ 32
  | 0 => by
    simp only [genState, Nat.zero_mul, Nat.add_zero]
    omega
  | k + 1 => by
    simp only [genState, x11_generate_id, genState_id conn hid k,
      genState_id_inc]
    rw [Nat.mod_add_mod, Nat.succ_mul, ← Nat.add_assoc]

/-- C2: for base `b` and increment `inc` recorded on a Connection, the k-th
call of `x11_generate_id` returns `b + k*inc` (as a `uint32_t`, i.e. modulo
`2 ^ 32`), and each call advances the counter by exactly the increment. -/
theorem generate_id_kth (conn : Connection) (k : Nat) (hid : conn.id < 2 ^ 32) :
    (x11_generate_id (genState conn k)).1 = (conn.id + k * conn.id_inc) % 2 ^ 32 ∧
    (x11_generate_id (genState conn k)).2.id =
      ((genState conn k).id + conn.id_inc) % 2 ^ 32 := by
  constructor
  · exact genState_id conn hid k
  · simp [x11_generate_id, genState_id_inc]

theorem generate_id_kth_witness :
    (x11_generate_id (genState ⟨0, 4194304, 1⟩ 2)).1 = (4194304 + 2 * 1) % 2 ^ 32 ∧
    (x11_generate_id (genState ⟨0, 4194304, 1⟩ 2)).2.id =
      ((genState ⟨0, 4194304, 1⟩ 2).id + 1) % 2 ^ 32 :=
  generate_id_kth ⟨0, 4194304, 1⟩ 2 (by decide)

/-- Example connection used by witnesses. -/
def conn0 : Connection := ⟨3, 0, 0⟩

/-- Example rejected setup reply used by witnesses. -/
def setupRejected : Setup := ⟨0, 11, 0, 8, 0, 4194304, 2097151, 256, 0, 65535, 0, 0, 0, 0, 32, 32, 8, 255⟩

/-- Example successful setup reply used by witnesses. -/
def setupOk : Setup := ⟨1, 11, 0, 8, 0, 4194304, 2097151, 256, 0, 65535, 0, 0, 0, 0, 32, 32, 8, 255⟩

/-- C4: when the setup reply's status is not the success value, the connect
logic returns failure and leaves the connection's resource state (counter and
increment) exactly as it was. -/
theorem connect_setup_rejected (setup : Setup) (conn : Connection)
    (h : setup.status ≠ 1) : x11_connect_setup setup conn = (false, conn) := by
  simp [x11_connect_setup, h]

theorem connect_setup_rejected_witness :
    x11_connect_setup setupRejected conn0 = (false, conn0) :=
  connect_setup_rejected setupRejected conn0 (by decide)

/-- Recursive characterization of the lowest set bit of a natural number:
`0` for `0`, `1` for odd numbers, twice the lowest set bit of `n / 2` for
even `n`. -/
def lowestSetBit (n : Nat) : Nat :=
  if h : n = 0 then 0
  else if n % 2 = 1 then 1
  else 2 * lowestSetBit (n / 2)
termination_by n
decreasing_by omega

theorem lowestSetBit_zero : lowestSetBit 0 = 0 := by
  simp [lowestSetBit]

theorem lowestSetBit_odd {n : Nat} (h : n % 2 = 1) : lowestSetBit n = 1 := by
  have h0 : n ≠ 0 := by omega
  rw [lowestSetBit]
  simp [h0, h]

theorem lowestSetBit_even {n : Nat} (h0 : n ≠ 0) (h : n % 2 = 0) :
    lowestSetBit n = 2 * lowestSetBit (n / 2) := by
  rw [lowestSetBit]
  simp [h0, h]

theorem land_two_pow_mul_add {i a b r s : Nat} (hr : r < 2 ^ i) (hs : s < 2 ^ i) :
    (2 ^ i * a + r) &&& (2 ^ i * b + s) = 2 ^ i * (a &&& b) + (r &&& s) := by
  have hrs : r &&& s < 2 ^ i := Nat.lt_of_le_of_lt Nat.and_le_left hr
  apply Nat.eq_of_testBit_eq
  intro j
  rw [Nat.testBit_and, Nat.testBit_mul_pow_two_add a hr j,
    Nat.testBit_mul_pow_two_add b hs j,
    Nat.testBit_mul_pow_two_add (a &&& b) hrs j]
  by_cases hj : j < i
  · simp [hj, Nat.testBit_and]
  · simp [hj, Nat.testBit_and]

theorem land_bit1 {a b r s : Nat} (hr : r < 2) (hs : s < 2) :
    (2 * a + r) &&& (2 * b + s) = 2 * (a &&& b) + (r &&& s) := by
  have h := land_two_pow_mul_add (i := 1) (a := a) (b := b) (r := r) (s := s)
    (by omega) (by omega)
  simpa using h

theorem land_compl {k a : Nat} (h : a < 2 ^ k) : a &&& (2 ^ k - 1 - a) = 0 := by
  apply Nat.eq_of_testBit_eq
  intro i
  rw [Nat.testBit_and]
  have hrw : 2 ^ k - 1 - a = 2 ^ k - (a + 1) := by omega
  rw [hrw, Nat.testBit_two_pow_sub_succ h i]
  simp only [Nat.zero_testBit]
  cases a.testBit i <;> simp

theorem land_neg_eq_lowestSetBit :
    ∀ (w m : Nat), 0 < m → m < 2 ^ w → m &&& (2 ^ w - m) = lowestSetBit m := by
  intro w
  induction w with
  | zero =>
    intro m h0 h1
    exact absurd h1 (by omega)
  | succ w ih =>
    intro m h0 h1
    have hp : 0 < 2 ^ w := Nat.two_pow_pos w
    have h2 : 2 ^ (w + 1) = 2 * 2 ^ w := by
      rw [Nat.pow_succ, Nat.mul_comm]
    by_cases hm : m % 2 = 1
    · obtain ⟨q, rfl⟩ : ∃ q, m = 2 * q + 1 := ⟨m / 2, by omega⟩
      have hq : q < 2 ^ w := by omega
      have hsub : 2 ^ (w + 1) - (2 * q + 1) = 2 * (2 ^ w - 1 - q) + 1 := by omega
      rw [hsub, land_bit1 (by omega) (by omega), land_compl hq,
        lowestSetBit_odd hm]
      decide
    · obtain ⟨q, rfl⟩ : ∃ q, m = 2 * q := ⟨m / 2, by omega⟩
      have hq0 : 0 < q := by omega
      have hq : q < 2 ^ w := by omega
      have hsub : 2 ^ (w + 1) - 2 * q = 2 * (2 ^ w - q) := by omega
      have hstep : (2 * q) &&& (2 * (2 ^ w - q)) = 2 * (q &&& (2 ^ w - q)) := by
        have h := land_bit1 (a := q) (b := 2 ^ w - q) (r := 0) (s := 0)
          (by omega) (by omega)
        simpa using h
      have hdiv : 2 * q / 2 = q := by omega
      rw [hsub, hstep, ih q hq0 hq,
        lowestSetBit_even (n := 2 * q) (by omega) (by omega), hdiv]

theorem land_neg32 {m : Nat} (hm : m < 2 ^ 32) :
    m &&& ((2 ^ 32 - m) % 2 ^ 32) = lowestSetBit m := by
  rcases Nat.eq_zero_or_pos m with h0 | h0
  · subst h0
    rw [Nat.sub_zero, Nat.mod_self, lowestSetBit_zero]
    decide
  · have hlt : (2 ^ 32 - m) % 2 ^ 32 = 2 ^ 32 - m := Nat.mod_eq_of_lt (by omega)
    rw [hlt]
    exact land_neg_eq_lowestSetBit 32 m h0 hm

/-- C3: the increment recorded by the connect logic equals the lowest set bit
of the server-supplied resource-id mask (computed in the source as
`mask & -mask` on `uint32_t`); in particular mask `0x1FFFFF` gives increment
`1` and mask `0xFFFFFFFE` gives increment `2`. -/
theorem connect_increment_lowest_set_bit (setup : Setup) (conn : Connection)
    (hm : setup.resource_id_mask < 2 ^ 32) (hs : setup.status = 1) :
    (x11_connect_setup setup conn).2.id_inc = lowestSetBit setup.resource_id_mask ∧
    lowestSetBit 0x1FFFFF = 1 ∧ lowestSetBit 0xFFFFFFFE = 2 := by
  refine ⟨?_, ?_, ?_⟩
  · have hproj : (x11_connect_setup setup conn).2.id_inc =
        setup.resource_id_mask &&& ((2 ^ 32 - setup.resource_id_mask) % 2 ^ 32) := by
      rw [x11_connect_setup, if_neg (by simp [hs])]
    rw [hproj, land_neg32 hm]
  · exact lowestSetBit_odd (by decide)
  · rw [lowestSetBit_even (by decide) (by decide), lowestSetBit_odd (by decide)]

theorem connect_increment_lowest_set_bit_witness :
    (x11_connect_setup setupOk conn0).2.id_inc = lowestSetBit setupOk.resource_id_mask ∧
    lowestSetBit 0x1FFFFF = 1 ∧ lowestSetBit 0xFFFFFFFE = 2 :=
  connect_increment_lowest_set_bit setupOk conn0 (by decide) (by decide)

/-- Lines 268-280 of `x11.c` (`x11_wait_for_event`): read one byte as the
type tag (`none` and result `false` on a zero-length read, i.e. empty
stream), mask off the top bit (`&= ~0x80`, i.e. `&&& 127`), and for the
exposure tag (`X11_EXPOSE = 12`) read and discard the remaining 13 bytes of
the event record; any other tag consumes nothing further.  Returns
(result, decoded tag, remaining stream). -/
def x11_wait_for_event (s : List Nat) : Bool × Option Nat × List Nat :=
  match s with
  | [] => (false, none, [])
  | b :: rest =>
    let t := b &&& 127
    if t = 12 then (true, some t, rest.drop 13) else (true, some t, rest)

/-- C5: `x11_wait_for_event` returns `false` exactly on an empty stream
(zero-length read, a normal non-error result); otherwise it masks the top
bit off the tag, returns `true`, and drops exactly the 13 remaining bytes of
the event record for the exposure tag while consuming nothing further for
every other tag. -/
theorem wait_for_event_cases (b : Nat) (rest : List Nat) :
    x11_wait_for_event [] = (false, none, []) ∧
    x11_wait_for_event (b :: rest) =
      (true, some (b &&& 127),
        if b &&& 127 = 12 then rest.drop 13 else rest) := by
  constructor
  · rfl
  · by_cases h : b &&& 127 = 12 <;> simp [x11_wait_for_event, h]

/-- Fixed header of `x11_open_font_request_t` (12 bytes), fields in declared
order, length field `(sizeof + aligned_name_size) / 4` as in lines 159-166
of `x11.c`. -/
def x11_open_font_header (fid name_size aligned_name_size : Nat) : List Nat :=
  [45, 0] ++ le16 ((12 + aligned_name_size) / 4) ++ le32 fid ++
    le16 name_size ++ [0, 0]

/-- Lines 158-168 of `x11.c` (`x11_open_font`): write the fixed header, then
`aligned_name_size = (name_size + 3) & ~3` bytes from the name pointer
(`size_t` arithmetic, so modulo `2 ^ 64`; `~3` is `2 ^ 64 - 4`).  `name` is
the memory starting at the name pointer, so bytes past position `name_size`
are adjacent memory, not synthesized zeros. -/
def x11_open_font (fid : Nat) (name : List Nat) (name_size : Nat) : List Nat :=
  let aligned_name_size := ((name_size + 3) % 2 ^ 64) &&& (2 ^ 64 - 4)
  x11_open_font_header fid name_size aligned_name_size ++
    name.take aligned_name_size

/-- Fixed header of `x11_create_gc_request_t` (16 bytes). -/
def x11_create_gc_header (cid drawable value_mask value_list_size : Nat) : List Nat :=
  [55, 0] ++ le16 ((16 + value_list_size) / 4) ++ le32 cid ++ le32 drawable ++
    le32 value_mask

/-- Lines 176-185 of `x11.c` (`x11_create_gc`): fixed header, then exactly
`value_list_size` bytes of the caller's value list, unpadded. -/
def x11_create_gc (cid drawable value_mask : Nat) (value_list : List Nat)
    (value_list_size : Nat) : List Nat :=
  x11_create_gc_header cid drawable value_mask value_list_size ++
    value_list.take value_list_size

/-- Fixed header of `x11_create_window_request_t` (32 bytes), fields in the
declared order of `x11.h` lines 143-157. -/
def x11_create_window_header (depth wid parent : Nat) (x y : Int)
    (width height border_width _class visual value_mask value_list_size : Nat) :
    List Nat :=
  [1, depth % 256] ++ le16 ((32 + value_list_size) / 4) ++ le32 wid ++
    le32 parent ++ leI16 x ++ leI16 y ++ le16 width ++ le16 height ++
    le16 border_width ++ le16 _class ++ le32 visual ++ le32 value_mask

/-- Lines 187-206 of `x11.c` (`x11_create_window`): fixed header, then
exactly `value_list_size` bytes of the caller's value list, unpadded. -/
def x11_create_window (depth wid parent : Nat) (x y : Int)
    (width height border_width _class visual value_mask : Nat)
    (value_list : List Nat) (value_list_size : Nat) : List Nat :=
  x11_create_window_header depth wid parent x y width height border_width
    _class visual value_mask value_list_size ++ value_list.take value_list_size

/-- Fixed header of `x11_change_property_request_t` (24 bytes). -/
def x11_change_property_header (mode window property type format data_size
    aligned_data_size : Nat) : List Nat :=
  [18, mode % 256] ++ le16 ((24 + aligned_data_size) / 4) ++ le32 window ++
    le32 property ++ le32 type ++ [format % 256, 0, 0, 0] ++ le32 data_size

/-- Lines 208-222 of `x11.c` (`x11_change_property`): fixed header, then
`aligned_data_size = (data_size + 3) & ~3` bytes from the data pointer. -/
def x11_change_property (mode window property type format : Nat)
    (data : List Nat) (data_size : Nat) : List Nat :=
  let aligned_data_size := ((data_size + 3) % 2 ^ 64) &&& (2 ^ 64 - 4)
  x11_change_property_header mode window property type format data_size
    aligned_data_size ++ data.take aligned_data_size

/-- Fixed header of `x11_configure_window_request_t` (12 bytes; the value
mask is a `uint16_t` here). -/
def x11_configure_window_header (window value_mask value_list_size : Nat) :
    List Nat :=
  [12, 0] ++ le16 ((12 + value_list_size) / 4) ++ le32 window ++
    le16 value_mask ++ [0, 0]

/-- Lines 224-233 of `x11.c` (`x11_configure_window`): fixed header, then
exactly `value_list_size` bytes of the caller's value list, unpadded. -/
def x11_configure_window (window value_mask : Nat) (value_list : List Nat)
    (value_list_size : Nat) : List Nat :=
  x11_configure_window_header window value_mask value_list_size ++
    value_list.take value_list_size

/-- Fixed header of `x11_image_text_8_request_t` (16 bytes); the string
length field is the single byte at offset 1 (`uint8_t`, so `% 256`). -/
def x11_image_text_8_header (drawable gc : Nat) (x y : Int)
    (string_size aligned_string_size : Nat) : List Nat :=
  [76, string_size % 256] ++ le16 ((16 + aligned_string_size) / 4) ++
    le32 drawable ++ le32 gc ++ leI16 x ++ leI16 y

/-- Lines 252-266 of `x11.c` (`x11_image_text_8`): fixed header, then
`aligned_string_size = (string_size + 3) & ~3` bytes from the string
pointer. -/
def x11_image_text_8 (drawable gc : Nat) (x y : Int) (string : List Nat)
    (string_size : Nat) : List Nat :=
  let aligned_string_size := ((string_size + 3) % 2 ^ 64) &&& (2 ^ 64 - 4)
  x11_image_text_8_header drawable gc x y string_size aligned_string_size ++
    string.take aligned_string_size

/-- Value of the 2-byte little-endian length field at offset 2 of an emitted
request. -/
def lengthField (s : List Nat) : Nat := s.getD 2 0 + 256 * s.getD 3 0

theorem lengthField_shape (a b v : Nat) (R : List Nat) :
    lengthField ([a, b] ++ (le16 v ++ R)) = v % 65536 := by
  simp [lengthField, le16]
  omega

/-- C8: for a word-aligned value list (declared byte size a multiple of 4,
matching the provided block, and small enough for the 2-byte length field),
`x11_create_gc`, `x11_create_window` and `x11_configure_window` emit exactly
the declared number of payload bytes after the fixed header, with no padding
added, and the emitted length field equals
`(fixed header size + declared byte size) / 4`. -/
theorem value_list_requests_unpadded (cid dr vm wid par dep wdt hgt bw cls vis msk win : Nat)
    (x y : Int) (vl : List Nat) (sz : Nat) (hsz : sz = vl.length)
    (h4 : sz % 4 = 0) (hb : sz < 262112) :
    ((x11_create_gc cid dr vm vl sz).drop 16 = vl ∧
      (x11_create_gc cid dr vm vl sz).length = 16 + sz ∧
      lengthField (x11_create_gc cid dr vm vl sz) = (16 + sz) / 4) ∧
    ((x11_create_window dep wid par x y wdt hgt bw cls vis msk vl sz).drop 32 = vl ∧
      (x11_create_window dep wid par x y wdt hgt bw cls vis msk vl sz).length = 32 + sz ∧
      lengthField (x11_create_window dep wid par x y wdt hgt bw cls vis msk vl sz) = (32 + sz) / 4) ∧
    ((x11_configure_window win msk vl sz).drop 12 = vl ∧
      (x11_configure_window win msk vl sz).length = 12 + sz ∧
      lengthField (x11_configure_window win msk vl sz) = (12 + sz) / 4) := by
  subst hsz
  have hgc : (x11_create_gc_header cid dr vm vl.length).length = 16 := by
    simp [x11_create_gc_header]
  have hcw : (x11_create_window_header dep wid par x y wdt hgt bw cls vis msk
      vl.length).length = 32 := by
    simp [x11_create_window_header]
  have hcf : (x11_configure_window_header win msk vl.length).length = 12 := by
    simp [x11_configure_window_header]
  refine ⟨⟨?_, ?_, ?_⟩, ⟨?_, ?_, ?_⟩, ⟨?_, ?_, ?_⟩⟩
  · rw [x11_create_gc, List.take_length, List.drop_left' hgc]
  · rw [x11_create_gc, List.take_length, List.length_append, hgc]
  · rw [x11_create_gc, List.take_length, x11_create_gc_header]
    simp only [List.append_assoc]
    rw [lengthField_shape]
    omega
  · rw [x11_create_window, List.take_length, List.drop_left' hcw]
  · rw [x11_create_window, List.take_length, List.length_append, hcw]
  · rw [x11_create_window, List.take_length, x11_create_window_header]
    simp only [List.append_assoc]
    rw [lengthField_shape]
    omega
  · rw [x11_configure_window, List.take_length, List.drop_left' hcf]
  · rw [x11_configure_window, List.take_length, List.length_append, hcf]
  · rw [x11_configure_window, List.take_length, x11_configure_window_header]
    simp only [List.append_assoc]
    rw [lengthField_shape]
    omega

theorem value_list_requests_unpadded_witness :
    ((x11_create_gc 5 6 4 [7, 0, 0, 0] 4).drop 16 = [7, 0, 0, 0] ∧
      (x11_create_gc 5 6 4 [7, 0, 0, 0] 4).length = 16 + 4 ∧
      lengthField (x11_create_gc 5 6 4 [7, 0, 0, 0] 4) = (16 + 4) / 4) ∧
    ((x11_create_window 24 9 8 1 2 100 50 0 1 0 2050 [7, 0, 0, 0] 4).drop 32 = [7, 0, 0, 0] ∧
      (x11_create_window 24 9 8 1 2 100 50 0 1 0 2050 [7, 0, 0, 0] 4).length = 32 + 4 ∧
      lengthField (x11_create_window 24 9 8 1 2 100 50 0 1 0 2050 [7, 0, 0, 0] 4) = (32 + 4) / 4) ∧
    ((x11_configure_window 9 2050 [7, 0, 0, 0] 4).drop 12 = [7, 0, 0, 0] ∧
      (x11_configure_window 9 2050 [7, 0, 0, 0] 4).length = 12 + 4 ∧
      lengthField (x11_configure_window 9 2050 [7, 0, 0, 0] 4) = (12 + 4) / 4) :=
  value_list_requests_unpadded 5 6 4 9 8 24 100 50 0 1 0 2050 9 1 2
    [7, 0, 0, 0] 4 (by decide) (by decide) (by decide)

/-- C10: the string-length field emitted by `x11_image_text_8` is the single
byte at offset 1 of the request, so for every caller-supplied `string_size`
it equals `string_size % 256`. -/
theorem image_text_8_string_len_byte (drawable gc : Nat) (x y : Int)
    (string : List Nat) (string_size : Nat) :
    (x11_image_text_8 drawable gc x y string string_size).getD 1 0 =
      string_size % 256 := by
  rfl

/-- C1: at the concrete input `fid = 1`, `name_size = 1`, with the name
buffer holding byte `70` followed in memory by the bytes `9, 9, 9`, the
emitted open-font request carries the claimed length field
`(12 + ((1 + 3) & ~3)) / 4 = 4`, but the `((1+3) & ~3) - 1 = 3` bytes
written after the payload byte are the adjacent memory bytes `9, 9, 9`, not
zeros: the code writes `aligned_name_size` bytes straight from the name
pointer instead of zero padding. -/
theorem open_font_padding_from_memory :
    x11_open_font 1 [70, 9, 9, 9] 1 =
      [45, 0, 4, 0, 1, 0, 0, 0, 1, 0, 0, 0] ++ [70, 9, 9, 9] ∧
    (x11_open_font 1 [70, 9, 9, 9] 1).drop 13 = [9, 9, 9] ∧
    [9, 9, 9] ≠ List.replicate 3 0 := by
  refine ⟨?_, ?_, ?_⟩ <;> decide

/-- Read one byte. -/
def readU8 : List Nat → Option (Nat × List Nat)
  | [] => none
  | a :: r => some (a, r)

/-- Read a little-endian 2-byte unsigned field. -/
def readLE16 : List Nat → Option (Nat × List Nat)
  | a :: b :: r => some (a + 256 * b, r)
  | _ => none

/-- Read a little-endian 4-byte unsigned field. -/
def readLE32 : List Nat → Option (Nat × List Nat)
  | a :: b :: c :: d :: r => some (a + 256 * b + 65536 * c + 16777216 * d, r)
  | _ => none

/-- Decode two bytes as a little-endian two's-complement 16-bit integer. -/
def decI16 (a b : Nat) : Int :=
  let n := a + 256 * b
  if n < 32768 then (n : Int) else (n : Int) - 65536

/-- Read a little-endian 2-byte two's-complement signed field. -/
def readLEI16 : List Nat → Option (Int × List Nat)
  | a :: b :: r => some (decI16 a b, r)
  | _ => none

/-- Read exactly `n` bytes, failing on a short stream. -/
def readBytes (n : Nat) (s : List Nat) : Option (List Nat × List Nat) :=
  if n ≤ s.length then some (s.take n, s.drop n) else none

theorem readLE16_le16 (n : Nat) (r : List Nat) (h : n < 65536) :
    readLE16 (le16 n ++ r) = some (n, r) := by
  simp [readLE16, le16]
  omega

theorem readLE32_le32 (n : Nat) (r : List Nat) (h : n < 4294967296) :
    readLE32 (le32 n ++ r) = some (n, r) := by
  simp [readLE32, le32]
  omega

theorem decI16_leI16 (x : Int) (h1 : -32768 ≤ x) (h2 : x < 32768) :
    decI16 ((x % 65536).toNat % 256) ((x % 65536).toNat / 256 % 256) = x := by
  have hnn : (0 : Int) ≤ x % 65536 := Int.emod_nonneg x (by norm_num)
  have hub : x % 65536 < 65536 := Int.emod_lt_of_pos x (by norm_num)
  simp only [decI16]
  split_ifs with hif
  · omega
  · omega

theorem readBytes_exact (l t : List Nat) :
    readBytes l.length (l ++ t) = some (l, t) := by
  rw [readBytes, if_pos (by simp), List.take_left, List.drop_left]

/-- The create-window request struct `x11_create_window_request_t` from
`x11.h` lines 143-157, in declared field order. -/
structure CreateWindowRequest where
  major_opcode : Nat
  depth : Nat
  length : Nat
  wid : Nat
  parent : Nat
  x : Int
  y : Int
  width : Nat
  height : Nat
  border_width : Nat
  _class : Nat
  visual : Nat
  value_mask : Nat
deriving DecidableEq, Repr

/-- Re-parser for the documented create-window wire layout: the 32-byte
fixed header in the declared field order of `x11_create_window_request_t`,
then `length * 4 - 32` bytes of value list. -/
def decode_create_window (s : List Nat) :
    Option (CreateWindowRequest × List Nat × List Nat) := do
  let (op, s) ← readU8 s
  let (dep, s) ← readU8 s
  let (len, s) ← readLE16 s
  let (wid, s) ← readLE32 s
  let (par, s) ← readLE32 s
  let (x, s) ← readLEI16 s
  let (y, s) ← readLEI16 s
  let (w, s) ← readLE16 s
  let (h, s) ← readLE16 s
  let (bw, s) ← readLE16 s
  let (cls, s) ← readLE16 s
  let (vis, s) ← readLE32 s
  let (msk, s) ← readLE32 s
  let (vl, s) ← readBytes (len * 4 - 32) s
  pure (⟨op, dep, len, wid, par, x, y, w, h, bw, cls, vis, msk⟩, vl, s)

theorem readBytes_all (l : List Nat) : readBytes l.length l = some (l, []) := by
  have h := readBytes_exact l []
  simpa using h

/-- Byte-level reduction of the re-parser on an explicit 32-byte header
followed by a tail. -/
theorem decode_create_window_bytes
    (o d l0 l1 w0 w1 w2 w3 p0 p1 p2 p3 x0 x1 y0 y1 u0 u1 g0 g1 e0 e1 c0 c1
      v0 v1 v2 v3 m0 m1 m2 m3 : Nat) (t : List Nat) :
    decode_create_window (o :: d :: l0 :: l1 :: w0 :: w1 :: w2 :: w3 ::
        p0 :: p1 :: p2 :: p3 :: x0 :: x1 :: y0 :: y1 :: u0 :: u1 :: g0 :: g1 ::
        e0 :: e1 :: c0 :: c1 :: v0 :: v1 :: v2 :: v3 :: m0 :: m1 :: m2 :: m3 :: t) =
      (readBytes ((l0 + 256 * l1) * 4 - 32) t).bind fun q =>
        some (⟨o, d, l0 + 256 * l1,
          w0 + 256 * w1 + 65536 * w2 + 16777216 * w3,
          p0 + 256 * p1 + 65536 * p2 + 16777216 * p3,
          decI16 x0 x1, decI16 y0 y1,
          u0 + 256 * u1, g0 + 256 * g1, e0 + 256 * e1, c0 + 256 * c1,
          v0 + 256 * v1 + 65536 * v2 + 16777216 * v3,
          m0 + 256 * m1 + 65536 * m2 + 16777216 * m3⟩, q.1, q.2) := rfl

/-- C9: encoding a create-window request and re-parsing the emitted bytes
against the documented `x11_create_window_request_t` layout recovers every
original field value (opcode `1`, the computed length `(32 + size) / 4`, and
all caller-supplied fields) and the value list exactly, with no bytes left
over. -/
theorem create_window_roundtrip (dep wid par wdt hgt bw cls vis msk : Nat)
    (x y : Int) (vl : List Nat) (sz : Nat)
    (hdep : dep < 256) (hwid : wid < 4294967296) (hpar : par < 4294967296)
    (hx1 : -32768 ≤ x) (hx2 : x < 32768) (hy1 : -32768 ≤ y) (hy2 : y < 32768)
    (hw : wdt < 65536) (hh : hgt < 65536) (hbw : bw < 65536)
    (hcls : cls < 65536) (hvis : vis < 4294967296) (hmsk : msk < 4294967296)
    (hsz : sz = vl.length) (h4 : sz % 4 = 0) (hb : sz < 262112) :
    decode_create_window
        (x11_create_window dep wid par x y wdt hgt bw cls vis msk vl sz) =
      some (⟨1, dep, (32 + sz) / 4, wid, par, x, y, wdt, hgt, bw, cls, vis,
        msk⟩, vl, []) := by
  subst hsz
  rw [x11_create_window, x11_create_window_header, List.take_length]
  simp only [le16, le32, leI16, List.cons_append, List.nil_append,
    List.append_assoc]
  rw [decode_create_window_bytes]
  have hL : (32 + vl.length) / 4 % 256 +
      256 * ((32 + vl.length) / 4 / 256 % 256) = (32 + vl.length) / 4 := by
    omega
  rw [hL]
  have hlen4 : (32 + vl.length) / 4 * 4 - 32 = vl.length := by omega
  rw [hlen4, readBytes_all, Option.some_bind]
  have hdm : dep % 256 = dep := Nat.mod_eq_of_lt hdep
  have h32 : ∀ n : Nat, n < 4294967296 →
      n % 256 + 256 * (n / 256 % 256) + 65536 * (n / 65536 % 256) +
        16777216 * (n / 16777216 % 256) = n := by
    intro n h
    omega
  have h16 : ∀ n : Nat, n < 65536 → n % 256 + 256 * (n / 256 % 256) = n := by
    intro n h
    omega
  rw [hdm, h32 wid hwid, h32 par hpar, h32 vis hvis, h32 msk hmsk,
    h16 wdt hw, h16 hgt hh, h16 bw hbw, h16 cls hcls,
    decI16_leI16 x hx1 hx2, decI16_leI16 y hy1 hy2]

theorem create_window_roundtrip_witness :
    decode_create_window
        (x11_create_window 24 5 4 (-10) 20 100 50 0 1 0 2050 [7, 0, 0, 0] 4) =
      some (⟨1, 24, (32 + 4) / 4, 5, 4, -10, 20, 100, 50, 0, 1, 0, 2050⟩,
        [7, 0, 0, 0], []) :=
  create_window_roundtrip 24 5 4 100 50 0 1 0 2050 (-10) 20 [7, 0, 0, 0] 4
    (by decide) (by decide) (by decide) (by decide) (by decide) (by decide)
    (by decide) (by decide) (by decide) (by decide) (by decide) (by decide)
    (by decide) (by decide) (by decide) (by decide)

/-- Big-endian 2-byte encoding of a length or family code as stored in the
`.Xauthority` file (the code applies `ntohs` after reading). -/
def be16 (n : Nat) : List Nat := [n / 256 % 256, n % 256]

@[simp] theorem be16_length (n : Nat) : (be16 n).length = 2 := rfl

/-- One `fread(&v, 2, 1, f)` followed by `ntohs(v)`: fails (short item
count) when fewer than 2 bytes remain. -/
def readBE16 : List Nat → Option (Nat × List Nat)
  | a :: b :: r => some (a * 256 + b, r)
  | _ => none

theorem readBE16_be16 (n : Nat) (t : List Nat) (h : n < 65536) :
    readBE16 (be16 n ++ t) = some (n, t) := by
  simp [readBE16, be16]
  omega

theorem readBE16_short (s : List Nat) (h : s.length ≤ 1) : readBE16 s = none := by
  match s with
  | [] => rfl
  | [a] => rfl
  | a :: b :: r => simp at h

theorem readBytes_short (n : Nat) (s : List Nat) (h : s.length < n) :
    readBytes n s = none := by
  rw [readBytes, if_neg (by omega)]

/-- The matched credential `x11_cookie_t`: family name and token bytes (the
stored lengths are the list lengths). -/
structure Cookie where
  name : List Nat
  data : List Nat
deriving DecidableEq, Repr

/-- One record of the credential store: 2-byte family code, then
length-prefixed address, display-qualifier, authentication-family name and
token fields. -/
structure XauthRecord where
  family : Nat
  address : List Nat
  display : List Nat
  name : List Nat
  data : List Nat
deriving DecidableEq, Repr

/-- Serialization of one record: every field preceded by its 2-byte
big-endian length (the family code has no length prefix). -/
def encRecord (r : XauthRecord) : List Nat :=
  be16 r.family ++ (be16 r.address.length ++ (r.address ++
    (be16 r.display.length ++ (r.display ++ (be16 r.name.length ++
      (r.name ++ (be16 r.data.length ++ r.data)))))))

/-- Well-formed record: the family code and every field length fit the
2-byte prefix. -/
def wfRecord (r : XauthRecord) : Prop :=
  r.family < 65536 ∧ r.address.length < 65536 ∧ r.display.length < 65536 ∧
    r.name.length < 65536 ∧ r.data.length < 65536

instance (r : XauthRecord) : Decidable (wfRecord r) := by
  unfold wfRecord
  infer_instance

theorem encRecord_length (r : XauthRecord) : (encRecord r).length =
    10 + r.address.length + r.display.length + r.name.length +
      r.data.length := by
  simp [encRecord]
  omega

/-- The 18 ASCII bytes of the expected family-name literal
`MIT-MAGIC-COOKIE-1`. -/
def magicCookieName : List Nat :=
  [77, 73, 84, 45, 77, 65, 71, 73, 67, 45, 67, 79, 79, 75, 73, 69, 45, 49]

/-- One iteration of the `while (1)` loop of `parse_xauthority` in `x11.c`
lines 27-61: read and convert the family code, read the address length and
seek over the address, likewise for the display qualifier, read the
length-prefixed name and data fields (breaking out on any short read), and
compare the name against the 18-byte literal.  Returns `none` for "break"
(end of store), `some (some c, _)` for a match, `some (none, rest)` to
continue scanning at `rest`.  `fseek` past end-of-file succeeds, so a skip
is a plain `drop`; the following read then fails. -/
def parseStep (s : List Nat) : Option (Option Cookie × List Nat) :=
  match readBE16 s with
  | none => none
  | some (_fam, s1) =>
    match readBE16 s1 with
    | none => none
    | some (alen, s2) =>
      match readBE16 (s2.drop alen) with
      | none => none
      | some (dlen, s4) =>
        match readBE16 (s4.drop dlen) with
        | none => none
        | some (nlen, s6) =>
          match readBytes nlen s6 with
          | none => none
          | some (nm, s7) =>
            match readBE16 s7 with
            | none => none
            | some (tlen, s8) =>
              match readBytes tlen s8 with
              | none => none
              | some (tk, s9) =>
                if nlen = 18 ∧ nm = magicCookieName then
                  some (some ⟨nm, tk⟩, s9)
                else
                  some (none, s9)

/-- The scanning loop, fuelled; each successful iteration consumes at least
2 bytes, so `s.length + 1` fuel always suffices. -/
def parseLoop : Nat → List Nat → Option Cookie
  | 0, _ => none
  | fuel + 1, s =>
    match parseStep s with
    | none => none
    | some (some c, _) => some c
    | some (none, rest) => parseLoop fuel rest

/-- Lines 24-64 of `x11.c` (`parse_xauthority`) on the store's byte
contents: scan records until a match, a short read, or end of store. -/
def parse_xauthority (s : List Nat) : Option Cookie :=
  parseLoop (s.length + 1) s

/-- `parse_xauthority` including the `fopen` step: `none` models a store
that cannot be opened, for which the function returns `NULL` without
scanning. -/
def parse_xauthority_file : Option (List Nat) → Option Cookie
  | none => none
  | some s => parse_xauthority s

/-- Serialization of a whole credential store. -/
def encStore : List XauthRecord → List Nat
  | [] => []
  | r :: rs => encRecord r ++ encStore rs

theorem parseStep_encRecord (r : XauthRecord) (t : List Nat)
    (hr : wfRecord r) :
    parseStep (encRecord r ++ t) =
      some ((if r.name = magicCookieName then some ⟨r.name, r.data⟩ else none),
        t) := by
  obtain ⟨hf, ha, hd, hn, hk⟩ := hr
  rw [encRecord]
  simp only [List.append_assoc]
  simp only [parseStep, readBE16_be16 _ _ hf, readBE16_be16 _ _ ha,
    readBE16_be16 _ _ hd, readBE16_be16 _ _ hn, readBE16_be16 _ _ hk,
    List.drop_left, readBytes_exact]
  by_cases hm : r.name = magicCookieName
  · rw [if_pos ⟨by rw [hm]; rfl, hm⟩, if_pos hm]
  · rw [if_neg (by tauto), if_neg hm]

theorem parseLoop_match (r : XauthRecord) (t : List Nat) (fuel : Nat)
    (hr : wfRecord r) (hm : r.name = magicCookieName) (hf : 0 < fuel) :
    parseLoop fuel (encRecord r ++ t) = some ⟨r.name, r.data⟩ := by
  obtain ⟨f, rfl⟩ : ∃ f, fuel = f + 1 := ⟨fuel - 1, by omega⟩
  simp only [parseLoop]
  rw [parseStep_encRecord r t hr, if_pos hm]

theorem parseLoop_none (fuel : Nat) (s : List Nat) (h : parseStep s = none)
    (hf : 0 < fuel) : parseLoop fuel s = none := by
  obtain ⟨f, rfl⟩ : ∃ f, fuel = f + 1 := ⟨fuel - 1, by omega⟩
  simp only [parseLoop, h]

theorem parseLoop_skip (pre : List XauthRecord) (s : List Nat) (fuel : Nat)
    (h : ∀ p ∈ pre, wfRecord p ∧ p.name ≠ magicCookieName) :
    parseLoop (pre.length + fuel) (encStore pre ++ s) = parseLoop fuel s := by
  induction pre with
  | nil => simp [encStore]
  | cons p pre ih =>
    have hp := h p (by simp)
    have hrest : ∀ q ∈ pre, wfRecord q ∧ q.name ≠ magicCookieName :=
      fun q hq => h q (by simp [hq])
    have hfuel : (p :: pre).length + fuel = (pre.length + fuel) + 1 := by
      simp
      omega
    rw [hfuel]
    simp only [encStore, List.append_assoc]
    simp only [parseLoop]
    rw [parseStep_encRecord p _ hp.1, if_neg hp.2]
    exact ih hrest

theorem encStore_length_ge (rs : List XauthRecord) :
    rs.length ≤ (encStore rs).length := by
  induction rs with
  | nil => simp [encStore]
  | cons r rs ih =>
    have hl := encRecord_length r
    simp only [encStore, List.length_append, List.length_cons]
    omega

/-- C6: for a store whose leading records are well formed and do not carry
the expected family name, followed by a well-formed record that does, the
reader returns exactly that record's name and token (byte for byte), having
fully skipped every earlier record; whatever bytes follow the matching
record are never examined. -/
theorem parse_xauthority_first_match (pre : List XauthRecord)
    (r : XauthRecord) (t : List Nat)
    (hpre : ∀ p ∈ pre, wfRecord p ∧ p.name ≠ magicCookieName)
    (hr : wfRecord r) (hm : r.name = magicCookieName) :
    parse_xauthority (encStore pre ++ (encRecord r ++ t)) =
      some ⟨r.name, r.data⟩ := by
  rw [parse_xauthority]
  have hge := encStore_length_ge pre
  have hsplit : (encStore pre ++ (encRecord r ++ t)).length + 1 =
      pre.length +
        ((encStore pre ++ (encRecord r ++ t)).length + 1 - pre.length) := by
    simp only [List.length_append]
    omega
  rw [hsplit, parseLoop_skip pre _ _ hpre,
    parseLoop_match r t _ hr hm (by simp only [List.length_append]; omega)]

/-- Example non-matching record used by witnesses. -/
def recOther : XauthRecord := ⟨256, [127, 0, 0, 1], [48], [88, 88], [5, 6]⟩

/-- Example matching record used by witnesses. -/
def recMagic : XauthRecord := ⟨256, [1, 2], [49], magicCookieName, [9, 9, 9, 9]⟩

theorem parse_xauthority_first_match_witness :
    parse_xauthority (encStore [recOther] ++ (encRecord recMagic ++ [1, 2, 3])) =
      some ⟨recMagic.name, recMagic.data⟩ :=
  parse_xauthority_first_match [recOther] recMagic [1, 2, 3] (by decide)
    (by decide) (by decide)

theorem parseStep_fail1 (s : List Nat) (h : s.length ≤ 1) :
    parseStep s = none := by
  simp [parseStep, readBE16_short s h]

theorem parseStep_fail2 (f : Nat) (hf : f < 65536) (s : List Nat)
    (h : s.length ≤ 1) : parseStep (be16 f ++ s) = none := by
  simp [parseStep, readBE16_be16 _ _ hf, readBE16_short s h]

theorem parseStep_fail3 (f al : Nat) (hf : f < 65536) (hal : al < 65536)
    (s : List Nat) (h : (s.drop al).length ≤ 1) :
    parseStep (be16 f ++ (be16 al ++ s)) = none := by
  simp [parseStep, readBE16_be16 _ _ hf, readBE16_be16 _ _ hal,
    readBE16_short _ h]

theorem parseStep_fail4 (f dl : Nat) (A s : List Nat) (hf : f < 65536)
    (hA : A.length < 65536) (hdl : dl < 65536) (h : (s.drop dl).length ≤ 1) :
    parseStep (be16 f ++ (be16 A.length ++ (A ++ (be16 dl ++ s)))) = none := by
  simp [parseStep, readBE16_be16 _ _ hf, readBE16_be16 _ _ hA,
    readBE16_be16 _ _ hdl, List.drop_left, readBE16_short _ h]

theorem parseStep_fail5 (f nl : Nat) (A D s : List Nat) (hf : f < 65536)
    (hA : A.length < 65536) (hD : D.length < 65536) (hnl : nl < 65536)
    (h : s.length < nl) :
    parseStep (be16 f ++ (be16 A.length ++ (A ++ (be16 D.length ++
      (D ++ (be16 nl ++ s)))))) = none := by
  simp [parseStep, readBE16_be16 _ _ hf, readBE16_be16 _ _ hA,
    readBE16_be16 _ _ hD, readBE16_be16 _ _ hnl, List.drop_left,
    readBytes_short _ _ h]

theorem parseStep_fail6 (f : Nat) (A D N s : List Nat) (hf : f < 65536)
    (hA : A.length < 65536) (hD : D.length < 65536) (hN : N.length < 65536)
    (h : s.length ≤ 1) :
    parseStep (be16 f ++ (be16 A.length ++ (A ++ (be16 D.length ++
      (D ++ (be16 N.length ++ (N ++ s))))))) = none := by
  simp [parseStep, readBE16_be16 _ _ hf, readBE16_be16 _ _ hA,
    readBE16_be16 _ _ hD, readBE16_be16 _ _ hN, List.drop_left,
    readBytes_exact, readBE16_short _ h]

theorem parseStep_fail7 (f kl : Nat) (A D N s : List Nat) (hf : f < 65536)
    (hA : A.length < 65536) (hD : D.length < 65536) (hN : N.length < 65536)
    (hkl : kl < 65536) (h : s.length < kl) :
    parseStep (be16 f ++ (be16 A.length ++ (A ++ (be16 D.length ++
      (D ++ (be16 N.length ++ (N ++ (be16 kl ++ s)))))))) = none := by
  simp [parseStep, readBE16_be16 _ _ hf, readBE16_be16 _ _ hA,
    readBE16_be16 _ _ hD, readBE16_be16 _ _ hN, readBE16_be16 _ _ hkl,
    List.drop_left, readBytes_exact, readBytes_short _ _ h]

theorem take_append_ge (l m : List Nat) (j : Nat) (h : l.length ≤ j) :
    (l ++ m).take j = l ++ m.take (j - l.length) := by
  rw [List.take_append_eq_append_take, List.take_of_length_le h]

theorem parseStep_take (r : XauthRecord) (j : Nat) (hr : wfRecord r)
    (hj : j < (encRecord r).length) : parseStep ((encRecord r).take j) = none := by
  obtain ⟨hf, ha, hd, hn, hk⟩ := hr
  have hlenE := encRecord_length r
  rw [encRecord]
  by_cases h1 : j ≤ 1
  · apply parseStep_fail1
    rw [List.length_take]
    omega
  by_cases h2 : j ≤ 3
  · rw [take_append_ge _ _ j (by simp; omega)]
    apply parseStep_fail2 _ hf
    rw [List.length_take]
    simp only [be16_length]
    omega
  by_cases h3 : j ≤ 5 + r.address.length
  · rw [take_append_ge _ _ j (by simp; omega),
      take_append_ge _ _ _ (by simp; omega)]
    apply parseStep_fail3 _ _ hf ha
    rw [List.length_drop, List.length_take]
    simp only [List.length_append, be16_length]
    omega
  by_cases h4 : j ≤ 7 + r.address.length + r.display.length
  · rw [take_append_ge _ _ j (by simp; omega),
      take_append_ge _ _ _ (by simp; omega),
      take_append_ge _ _ _ (by simp; omega),
      take_append_ge _ _ _ (by simp; omega)]
    apply parseStep_fail4 _ _ _ _ hf ha hd
    rw [List.length_drop, List.length_take]
    simp only [List.length_append, be16_length]
    omega
  by_cases h5 : j ≤ 7 + r.address.length + r.display.length + r.name.length
  · rw [take_append_ge _ _ j (by simp; omega),
      take_append_ge _ _ _ (by simp; omega),
      take_append_ge _ _ _ (by simp; omega),
      take_append_ge _ _ _ (by simp; omega),
      take_append_ge _ _ _ (by simp; omega),
      take_append_ge _ _ _ (by simp; omega)]
    apply parseStep_fail5 _ _ _ _ _ hf ha hd hn
    rw [List.length_take]
    simp only [List.length_append, be16_length]
    omega
  by_cases h6 : j ≤ 9 + r.address.length + r.display.length + r.name.length
  · rw [take_append_ge _ _ j (by simp; omega),
      take_append_ge _ _ _ (by simp; omega),
      take_append_ge _ _ _ (by simp; omega),
      take_append_ge _ _ _ (by simp; omega),
      take_append_ge _ _ _ (by simp; omega),
      take_append_ge _ _ _ (by simp; omega),
      take_append_ge _ _ _ (by simp; omega)]
    apply parseStep_fail6 _ _ _ _ _ hf ha hd hn
    rw [List.length_take]
    simp only [List.length_append, be16_length]
    omega
  · rw [take_append_ge _ _ j (by simp; omega),
      take_append_ge _ _ _ (by simp; omega),
      take_append_ge _ _ _ (by simp; omega),
      take_append_ge _ _ _ (by simp; omega),
      take_append_ge _ _ _ (by simp; omega),
      take_append_ge _ _ _ (by simp; omega),
      take_append_ge _ _ _ (by simp; omega),
      take_append_ge _ _ _ (by simp; omega)]
    apply parseStep_fail7 _ _ _ _ _ _ hf ha hd hn hk
    rw [List.length_take]
    simp only [List.length_append, be16_length]
    omega

/-- The fixed-size setup request `x11_setup_request_t` from `x11.h` (pad
bytes omitted; they are zero). -/
structure SetupRequest where
  byte_order : Nat
  protocol_major_version : Nat
  protocol_minor_version : Nat
  authorization_protocol_name_len : Nat
  authorization_protocol_data_len : Nat
deriving DecidableEq, Repr

/-- Lines 92-107 of `x11.c` (`x11_connect`): build the setup request; with
no cookie the authorization name and data lengths are zero (byte order
marker `'l' = 108`, protocol version 11.0). -/
def mkSetupRequest : Option Cookie → SetupRequest
  | none => ⟨108, 11, 0, 0, 0⟩
  | some c => ⟨108, 11, 0, c.name.length % 65536, c.data.length % 65536⟩

/-- Lines 108-115 of `x11.c`: the authorization bytes written after the
setup request; nothing at all is written when no cookie was found,
otherwise name and data each zero-padded to a 4-byte boundary. -/
def authPayload : Option Cookie → List Nat
  | none => []
  | some c =>
    (c.name ++ (if c.name.length % 4 ≠ 0 then
      List.replicate (4 - c.name.length % 4) 0 else [])) ++
    (c.data ++ (if c.data.length % 4 ≠ 0 then
      List.replicate (4 - c.data.length % 4) 0 else []))

/-- C7: an unopenable store, an empty store, and a store ending in the
middle of a record (any strict prefix of a well-formed record, possibly
after well-formed non-matching records) all yield "no credential found"
(`none`, not an error), and connection establishment then proceeds with
zero-length authentication fields and no authorization bytes. -/
theorem parse_xauthority_not_found (pre : List XauthRecord) (r : XauthRecord)
    (j : Nat) (hpre : ∀ p ∈ pre, wfRecord p ∧ p.name ≠ magicCookieName)
    (hr : wfRecord r) (hj : j < (encRecord r).length) :
    parse_xauthority_file none = none ∧
    parse_xauthority [] = none ∧
    parse_xauthority (encStore pre ++ (encRecord r).take j) = none ∧
    (mkSetupRequest none).authorization_protocol_name_len = 0 ∧
    (mkSetupRequest none).authorization_protocol_data_len = 0 ∧
    authPayload none = [] := by
  refine ⟨rfl, rfl, ?_, rfl, rfl, rfl⟩
  rw [parse_xauthority]
  have hge := encStore_length_ge pre
  have hsplit : (encStore pre ++ (encRecord r).take j).length + 1 =
      pre.length +
        ((encStore pre ++ (encRecord r).take j).length + 1 - pre.length) := by
    simp only [List.length_append]
    omega
  rw [hsplit, parseLoop_skip pre _ _ hpre]
  exact parseLoop_none _ _ (parseStep_take r j hr hj)
    (by simp only [List.length_append]; omega)

theorem parse_xauthority_not_found_witness :
    parse_xauthority_file none = none ∧
    parse_xauthority [] = none ∧
    parse_xauthority (encStore [recOther] ++ (encRecord recMagic).take 5) = none ∧
    (mkSetupRequest none).authorization_protocol_name_len = 0 ∧
    (mkSetupRequest none).authorization_protocol_data_len = 0 ∧
    authPayload none = [] :=
  parse_xauthority_not_found [recOther] recMagic 5 (by decide) (by decide)
    (by decide)
